import Mathlib

/-!
Shallow embedding of `packages/scm/src/browser/scm-service.ts`: the SCM
registry (`ScmService`), the repository wrapper (`ScmRepositoryImpl`), the
input model (`ScmInputImpl`) and the validation-result equality helper
(`InputValidator.Result.equal`).

Object identity of repository wrappers is modelled by natural-number uids
allocated at registration time; the mutable wrapper objects live in a `heap`
association list carried by the service state.  Every mutating operation
returns the successor state together with the ordered list of notifications
it fired, so emission counts and payload order are part of the model.
-/

/-- The `type` field of an `InputValidation` / `InputValidator.Result`:
the TypeScript union `'info' | 'success' | 'warning' | 'error'`. -/
inductive InputValidationType
  | info
  | success
  | warning
  | error
  deriving DecidableEq, BEq, Repr

namespace InputValidator

/-- `InputValidator.Result`: a message plus a severity type. -/
structure Result where
  message : String
  type : InputValidationType
  deriving DecidableEq, BEq, Repr

namespace Result

/-- `InputValidator.Result.equal`: mirrors the source.  When both arguments
are present (objects are truthy in JS) it compares `message` and `type`
structurally; otherwise it falls back to `left === right`, which is `true`
exactly when both are `undefined`. -/
def equal (left right : Option Result) : Bool :=
  match left, right with
  | some l, some r => l.message == r.message && l.type == r.type
  | none, none => true
  | _, _ => false

end Result

end InputValidator

/-- Notifications fired by the input model's emitters
(`onDidChange`, `onDidChangePlaceholder`, `onDidChangeVisibility`,
`onDidChangeValidateInput`). -/
inductive InputEvent
  | didChange (value : String)
  | didChangePlaceholder (placeholder : String)
  | didChangeVisibility (visible : Bool)
  | didChangeValidateInput
  deriving DecidableEq, Repr

/-- `ScmInputImpl`: value, placeholder and visibility with their defaults
(`''`, `''`, `true`).  The validator field is a caller-supplied function the
model never invokes, so it is not represented. -/
structure ScmInputImpl where
  _value : String := ""
  _placeholder : String := ""
  _visible : Bool := true
  deriving DecidableEq, Repr

/-- The `value` setter: no-op without notification when the new value equals
the stored one, otherwise store and fire `onDidChange` with the new value. -/
def ScmInputImpl.setValue (s : ScmInputImpl) (value : String) :
    ScmInputImpl × List InputEvent :=
  if s._value == value then (s, [])
  else ({ s with _value := value }, [InputEvent.didChange value])

/-- The `placeholder` setter: always stores and always fires
`onDidChangePlaceholder` (no equality short-circuit). -/
def ScmInputImpl.setPlaceholder (s : ScmInputImpl) (placeholder : String) :
    ScmInputImpl × List InputEvent :=
  ({ s with _placeholder := placeholder },
   [InputEvent.didChangePlaceholder placeholder])

/-- The `visible` setter: always stores and always fires
`onDidChangeVisibility`. -/
def ScmInputImpl.setVisible (s : ScmInputImpl) (visible : Bool) :
    ScmInputImpl × List InputEvent :=
  ({ s with _visible := visible }, [InputEvent.didChangeVisibility visible])

/-- Notifications fired by a repository wrapper's own emitters
(`onDidFocus`, `onDidChangeSelection`). -/
inductive RepoEvent
  | didFocus
  | didChangeSelection (selected : Bool)
  deriving DecidableEq, Repr

/-- The mutable state of one `ScmRepositoryImpl`: the wrapped provider's id,
the `_selected` flag (initially `false`) and the owned input model. -/
structure ScmRepositoryImpl where
  providerId : String
  _selected : Bool := false
  input : ScmInputImpl := {}
  deriving DecidableEq, Repr

/-- `setSelected`: unconditionally stores the flag and fires
`onDidChangeSelection` with the new boolean. -/
def ScmRepositoryImpl.setSelected (r : ScmRepositoryImpl) (selected : Bool) :
    ScmRepositoryImpl × List RepoEvent :=
  ({ r with _selected := selected }, [RepoEvent.didChangeSelection selected])

/-- `focus`: fires `onDidFocus`; no state change. -/
def ScmRepositoryImpl.focus (r : ScmRepositoryImpl) :
    ScmRepositoryImpl × List RepoEvent :=
  (r, [RepoEvent.didFocus])

/-- Registry-level observable effects: the three `ScmService` emitters plus
the forwarding of `dispose()` to the wrapped provider (an external call, not
a registry notification). -/
inductive ScmEvent
  | didAddRepository (uid : Nat)
  | didRemoveRepository (uid : Nat)
  | didChangeSelectedRepositories (uid : Option Nat)
  | providerDisposed (providerId : String)
  deriving DecidableEq, Repr

/-- `true` for the events fired on the registry's own emitters, `false` for
the external provider-dispose forwarding. -/
def ScmEvent.isRegistryEvent : ScmEvent → Bool
  | .providerDisposed _ => false
  | _ => true

/-- The `ScmService` state: the provider-id set, the ordered wrapper
sequence (by uid), the nullable selection, the heap of allocated wrapper
objects, and the next fresh uid. -/
structure ScmService where
  providerIds : List String := []
  _repositories : List Nat := []
  _selectedRepository : Option Nat := none
  heap : List (Nat × ScmRepositoryImpl) := []
  nextUid : Nat := 0
  deriving DecidableEq, Repr

/-- A freshly constructed `ScmService`. -/
def emptyScmService : ScmService := {}

/-- The array spread `[...arr]` used by the `repositories` getter: rebuilds
the list element by element, producing a fresh copy. -/
def jsArrayCopy {α : Type} : List α → List α
  | [] => []
  | x :: xs => x :: jsArrayCopy xs

/-- The `repositories` getter: returns a fresh copy of the internal
sequence. -/
def ScmService.repositories (s : ScmService) : List Nat :=
  jsArrayCopy s._repositories

/-- The `selectedRepository` getter. -/
def ScmService.selectedRepository (s : ScmService) : Option Nat :=
  s._selectedRepository

/-- The `selectedRepository` setter: unconditionally stores the value and
fires `onDidChangeSelectedRepositories` with it. -/
def ScmService.setSelectedRepository (s : ScmService) (repository : Option Nat) :
    ScmService × List ScmEvent :=
  ({ s with _selectedRepository := repository },
   [ScmEvent.didChangeSelectedRepositories repository])

/-- `registerScmProvider`: throws when the provider id is already present
(before any mutation); otherwise records the id, allocates a fresh wrapper,
appends it to the sequence, fires `onDidAddRepository`, and — when the
sequence now has length 1 — assigns it as the selected repository through
the setter (which fires its own notification).  Returns the new wrapper's
uid. -/
def ScmService.registerScmProvider (s : ScmService) (providerId : String) :
    Except String Nat × ScmService × List ScmEvent :=
  if s.providerIds.contains providerId then
    (Except.error ("SCM Provider " ++ providerId ++ " already exists."), s, [])
  else
    let uid := s.nextUid
    let repository : ScmRepositoryImpl := { providerId := providerId }
    let s1 : ScmService :=
      { s with
        providerIds := s.providerIds ++ [providerId]
        heap := s.heap ++ [(uid, repository)]
        _repositories := s._repositories ++ [uid]
        nextUid := uid + 1 }
    if s1._repositories.length == 1 then
      let step := s1.setSelectedRepository (some uid)
      (Except.ok uid, step.1, ScmEvent.didAddRepository uid :: step.2)
    else
      (Except.ok uid, s1, [ScmEvent.didAddRepository uid])

/-- `ScmRepositoryImpl.dispose` for the wrapper `uid`, acting on the service
state: first the registration disposable runs (if the wrapper is no longer
in the sequence it returns silently; otherwise it frees the provider id,
splices the wrapper out and fires `onDidRemoveRepository`), then `dispose`
is forwarded to the wrapped provider. -/
def ScmRepositoryImpl.dispose (s : ScmService) (uid : Nat) :
    ScmService × List ScmEvent :=
  match List.lookup uid s.heap with
  | none => (s, [])
  | some repository =>
    let step :=
      if s._repositories.contains uid then
        ({ s with
            providerIds := s.providerIds.erase repository.providerId
            _repositories := s._repositories.erase uid },
         [ScmEvent.didRemoveRepository uid])
      else (s, ([] : List ScmEvent))
    (step.1, step.2 ++ [ScmEvent.providerDisposed repository.providerId])

/-- Fold `registerScmProvider` over a list of provider ids, keeping only the
evolving state. -/
def ScmService.registerAll (s : ScmService) : List String → ScmService
  | [] => s
  | pid :: pids => ((s.registerScmProvider pid).2.1).registerAll pids

/-- `true` when every registration in the list succeeds in sequence. -/
def ScmService.registerAllOk (s : ScmService) : List String → Bool
  | [] => true
  | pid :: pids =>
    (match (s.registerScmProvider pid).1 with
     | Except.ok _ => true
     | Except.error _ => false)
    && ((s.registerScmProvider pid).2.1).registerAllOk pids

/-- Decidable form of the selection-membership invariant: the selected
repository, when set, is a member of the current sequence. -/
def ScmService.selectedOk (s : ScmService) : Bool :=
  match s._selectedRepository with
  | none => true
  | some uid => s._repositories.contains uid

/-! ### Helper lemmas -/

theorem jsArrayCopy_eq {α : Type} (l : List α) : jsArrayCopy l = l := by
  induction l with
  | nil => rfl
  | cons x xs ih => simp [jsArrayCopy, ih]

theorem contains_eq_true_iff {α : Type} [BEq α] [LawfulBEq α]
    (l : List α) (a : α) : l.contains a = true ↔ a ∈ l := by
  simp [List.contains]

theorem contains_eq_false_iff {α : Type} [BEq α] [LawfulBEq α]
    (l : List α) (a : α) : l.contains a = false ↔ a ∉ l := by
  rw [← Bool.not_eq_true, not_iff_not]
  exact contains_eq_true_iff l a

theorem registerScmProvider_of_duplicate (s : ScmService) (pid : String)
    (h : s.providerIds.contains pid = true) :
    s.registerScmProvider pid
      = (Except.error ("SCM Provider " ++ pid ++ " already exists."), s, []) := by
  have hm : pid ∈ s.providerIds := (contains_eq_true_iff _ _).mp h
  simp [ScmService.registerScmProvider, hm]

theorem registerScmProvider_of_fresh (s : ScmService) (pid : String)
    (h : s.providerIds.contains pid = false) :
    (s.registerScmProvider pid).1 = Except.ok s.nextUid
    ∧ (s.registerScmProvider pid).2.1.providerIds = s.providerIds ++ [pid]
    ∧ (s.registerScmProvider pid).2.1._repositories
        = s._repositories ++ [s.nextUid]
    ∧ (s.registerScmProvider pid).2.1.heap
        = s.heap ++ [(s.nextUid, { providerId := pid })]
    ∧ (s.registerScmProvider pid).2.1.nextUid = s.nextUid + 1
    ∧ (s.registerScmProvider pid).2.1._selectedRepository
        = (if s._repositories = [] then some s.nextUid
           else s._selectedRepository) := by
  have hm : pid ∉ s.providerIds := (contains_eq_false_iff _ _).mp h
  cases hr : s._repositories with
  | nil =>
    simp [ScmService.registerScmProvider, hm, hr, ScmService.setSelectedRepository]
  | cons a as =>
    simp [ScmService.registerScmProvider, hm, hr, ScmService.setSelectedRepository]

theorem registerScmProvider_preserves_selected (s : ScmService) (pid : String)
    (h : s._repositories ≠ []) :
    (s.registerScmProvider pid).2.1._selectedRepository = s._selectedRepository
    ∧ (s.registerScmProvider pid).2.1._repositories ≠ [] := by
  cases hc : s.providerIds.contains pid with
  | true => simp [registerScmProvider_of_duplicate s pid hc, h]
  | false =>
    obtain ⟨-, -, hrep, -, -, hsel⟩ := registerScmProvider_of_fresh s pid hc
    refine ⟨?_, ?_⟩
    · rw [hsel, if_neg h]
    · rw [hrep]
      simp

theorem registerAll_preserves_selected (ps : List String) :
    ∀ s : ScmService, s._repositories ≠ [] →
      (s.registerAll ps)._selectedRepository = s._selectedRepository
      ∧ (s.registerAll ps)._repositories ≠ [] := by
  induction ps with
  | nil => intro s h; exact ⟨rfl, h⟩
  | cons p ps ih =>
    intro s h
    obtain ⟨hsel, hne⟩ := registerScmProvider_preserves_selected s p h
    obtain ⟨ihsel, ihne⟩ := ih (s.registerScmProvider p).2.1 hne
    exact ⟨by rw [ScmService.registerAll, ihsel, hsel], by rw [ScmService.registerAll]; exact ihne⟩

theorem registerAllOk_of_fresh (ps : List String) :
    ∀ s : ScmService, ps.Nodup →
      (∀ q ∈ ps, s.providerIds.contains q = false) →
      s.registerAllOk ps = true := by
  induction ps with
  | nil => intro s _ _; rfl
  | cons p ps ih =>
    intro s hnd hfresh
    have hp : s.providerIds.contains p = false := hfresh p (List.mem_cons_self p ps)
    obtain ⟨hok, hids, -, -, -, -⟩ := registerScmProvider_of_fresh s p hp
    have hrest : ((s.registerScmProvider p).2.1).registerAllOk ps = true := by
      refine ih (s.registerScmProvider p).2.1 (List.Nodup.of_cons hnd) ?_
      intro q hq
      rw [hids, contains_eq_false_iff]
      have hqs : q ∉ s.providerIds :=
        (contains_eq_false_iff _ _).mp (hfresh q (List.mem_cons_of_mem p hq))
      have hqp : q ≠ p := by
        intro hEq
        exact (List.nodup_cons.mp hnd).1 (hEq ▸ hq)
      simp [List.mem_append, hqs, hqp]
    rw [ScmService.registerAllOk, hok, hrest]
    rfl

theorem dispose_of_mem (s : ScmService) (uid : Nat) (r : ScmRepositoryImpl)
    (hheap : List.lookup uid s.heap = some r) (hmem : uid ∈ s._repositories) :
    ScmRepositoryImpl.dispose s uid
      = ({ s with providerIds := s.providerIds.erase r.providerId,
                  _repositories := s._repositories.erase uid },
         [ScmEvent.didRemoveRepository uid,
          ScmEvent.providerDisposed r.providerId]) := by
  simp [ScmRepositoryImpl.dispose, hheap, hmem]

theorem dispose_of_not_mem (s : ScmService) (uid : Nat) (r : ScmRepositoryImpl)
    (hheap : List.lookup uid s.heap = some r) (hmem : uid ∉ s._repositories) :
    ScmRepositoryImpl.dispose s uid
      = (s, [ScmEvent.providerDisposed r.providerId]) := by
  simp [ScmRepositoryImpl.dispose, hheap, hmem]

/-! ### Claim theorems -/

/-- C1: for every registry state, registering a provider whose id equals an
already-registered id raises the duplicate-registration error identifying
that id and leaves the registry unchanged — the repositories snapshot, the
provider-id set and the selected repository are identical to before the
attempt — and no notification is emitted. -/
theorem C1_registerScmProvider_duplicate_error (s : ScmService) (pid : String)
    (h : s.providerIds.contains pid = true) :
    s.registerScmProvider pid
        = (Except.error ("SCM Provider " ++ pid ++ " already exists."), s, [])
      ∧ (s.registerScmProvider pid).2.1.repositories = s.repositories
      ∧ (s.registerScmProvider pid).2.1.providerIds = s.providerIds
      ∧ (s.registerScmProvider pid).2.1.selectedRepository = s.selectedRepository
      ∧ (s.registerScmProvider pid).2.2 = [] := by
  have he := registerScmProvider_of_duplicate s pid h
  refine ⟨he, ?_, ?_, ?_, ?_⟩ <;> rw [he]

/-- Witness for C1: registering id `"a"` twice from the empty registry. -/
theorem C1_witness :
    ((emptyScmService.registerScmProvider "a").2.1.providerIds.contains "a" = true)
    ∧ ((emptyScmService.registerScmProvider "a").2.1.registerScmProvider "a"
        = (Except.error ("SCM Provider " ++ "a" ++ " already exists."),
           (emptyScmService.registerScmProvider "a").2.1, [])) :=
  ⟨by decide, (C1_registerScmProvider_duplicate_error _ "a" (by decide)).1⟩

/-- C2: for any sequence of registrations with distinct ids starting from
the empty registry, the first registration returns wrapper `0`, that wrapper
is the selected repository immediately afterwards, every subsequent
registration succeeds, and the selection still is wrapper `0` after all of
them. -/
theorem C2_first_registration_stays_selected (p : String) (ps : List String)
    (h : (p :: ps).Nodup) :
    (emptyScmService.registerScmProvider p).1 = Except.ok 0
    ∧ (emptyScmService.registerScmProvider p).2.1.selectedRepository = some 0
    ∧ (emptyScmService.registerScmProvider p).2.1.registerAllOk ps = true
    ∧ ((emptyScmService.registerScmProvider p).2.1.registerAll ps).selectedRepository
        = some 0 := by
  have hfresh : emptyScmService.providerIds.contains p = false := rfl
  obtain ⟨hok, hids, hrep, -, -, hsel⟩ :=
    registerScmProvider_of_fresh emptyScmService p hfresh
  have hsel0 : (emptyScmService.registerScmProvider p).2.1._selectedRepository
      = some 0 := by
    rw [hsel]; rfl
  have hne : (emptyScmService.registerScmProvider p).2.1._repositories ≠ [] := by
    rw [hrep]; simp
  refine ⟨hok, hsel0, ?_, ?_⟩
  · refine registerAllOk_of_fresh ps _ (List.Nodup.of_cons h) ?_
    intro q hq
    rw [hids, contains_eq_false_iff]
    have hqp : q ≠ p := by
      intro hEq
      exact (List.nodup_cons.mp h).1 (hEq ▸ hq)
    simp [emptyScmService, hqp]
  · rw [ScmService.selectedRepository,
        (registerAll_preserves_selected ps _ hne).1, hsel0]

/-- Witness for C2: the distinct ids `"a"`, `"b"`, `"c"`. -/
theorem C2_witness :
    (("a" :: ["b", "c"]).Nodup : Prop)
    ∧ ((emptyScmService.registerScmProvider "a").1 = Except.ok 0
       ∧ (emptyScmService.registerScmProvider "a").2.1.selectedRepository = some 0
       ∧ (emptyScmService.registerScmProvider "a").2.1.registerAllOk ["b", "c"] = true
       ∧ ((emptyScmService.registerScmProvider "a").2.1.registerAll
            ["b", "c"]).selectedRepository = some 0) :=
  ⟨by decide, C2_first_registration_stays_selected "a" ["b", "c"] (by decide)⟩

/-- C5: setting the input value to the string currently stored is a no-op
emitting nothing; setting a different string stores it and emits exactly one
value-change notification carrying it.  Consequently `setValue x` twice
emits exactly one notification and `setValue x` then `setValue y` emits two,
payloads `x` then `y` in order. -/
theorem C5_setValue_notifications (s : ScmInputImpl) (x y : String)
    (hx : s._value ≠ x) (hxy : x ≠ y) :
    (ScmInputImpl.setValue s s._value = (s, []))
    ∧ ((s.setValue x).1._value = x)
    ∧ ((s.setValue x).2 = [InputEvent.didChange x])
    ∧ ((s.setValue x).1.setValue x = ((s.setValue x).1, []))
    ∧ (((s.setValue x).1.setValue y).1._value = y)
    ∧ (((s.setValue x).1.setValue y).2 = [InputEvent.didChange y])
    ∧ ((s.setValue x).2 ++ ((s.setValue x).1.setValue x).2
        = [InputEvent.didChange x])
    ∧ ((s.setValue x).2 ++ ((s.setValue x).1.setValue y).2
        = [InputEvent.didChange x, InputEvent.didChange y]) := by
  simp [ScmInputImpl.setValue, hx, hxy]

/-- Witness for C5: a fresh input model, `x := "x"`, `y := "y"`. -/
theorem C5_witness :
    (({} : ScmInputImpl)._value ≠ "x")
    ∧ (("x" : String) ≠ "y")
    ∧ ((({} : ScmInputImpl).setValue "x").2
        ++ (((({} : ScmInputImpl).setValue "x").1).setValue "y").2
        = [InputEvent.didChange "x", InputEvent.didChange "y"]) :=
  ⟨by decide, by decide,
   (C5_setValue_notifications {} "x" "y" (by decide) (by decide)).2.2.2.2.2.2.2⟩

/-- C6: the placeholder setter always stores the new string and always emits
exactly one placeholder-change notification carrying it, even when it equals
the current placeholder; two consecutive calls with the same string emit two
notifications. -/
theorem C6_setPlaceholder_always_notifies (s : ScmInputImpl) (p : String) :
    ((s.setPlaceholder p).1._placeholder = p)
    ∧ ((s.setPlaceholder p).2 = [InputEvent.didChangePlaceholder p])
    ∧ (((s.setPlaceholder p).1.setPlaceholder p).1._placeholder = p)
    ∧ ((s.setPlaceholder p).2 ++ ((s.setPlaceholder p).1.setPlaceholder p).2
        = [InputEvent.didChangePlaceholder p, InputEvent.didChangePlaceholder p]) :=
  ⟨rfl, rfl, rfl, rfl⟩

/-- C7: both selection setters notify unconditionally — assigning the
registry's selected repository stores the value and emits exactly one
selected-repository-changed notification carrying it (even for the same
reference or `none`), and a wrapper's `setSelected` stores the flag and
emits exactly one selection-changed notification carrying it (even when the
flag is unchanged). -/
theorem C7_selection_setters_unconditional (s : ScmService) (v : Option Nat)
    (r : ScmRepositoryImpl) (b : Bool) :
    ((s.setSelectedRepository v).1.selectedRepository = v)
    ∧ ((s.setSelectedRepository v).2 = [ScmEvent.didChangeSelectedRepositories v])
    ∧ ((r.setSelected b).1._selected = b)
    ∧ ((r.setSelected b).2 = [RepoEvent.didChangeSelection b]) :=
  ⟨rfl, rfl, rfl, rfl⟩

/-- C9: `InputValidator.Result.equal` is true on two absent results, on two
present results compares exactly the `message` and `type` fields, and is
false between an absent and a present result. -/
theorem C9_result_equal_spec (l r : InputValidator.Result) :
    (InputValidator.Result.equal none none = true)
    ∧ (InputValidator.Result.equal (some l) (some r)
        = (l.message == r.message && l.type == r.type))
    ∧ (InputValidator.Result.equal none (some r) = false)
    ∧ (InputValidator.Result.equal (some r) none = false)
    ∧ (InputValidator.Result.equal
        (some { message := "m", type := InputValidationType.info })
        (some { message := "m", type := InputValidationType.info }) = true)
    ∧ (InputValidator.Result.equal
        (some { message := "m", type := InputValidationType.info })
        (some { message := "m", type := InputValidationType.error }) = false) :=
  ⟨rfl, rfl, rfl, rfl, by decide, by decide⟩

/-- C10: the registry-level selection and the wrapper-level selected flag
are independent — after the first registration into an empty registry the
registry reports the new wrapper as selected while that wrapper's own
`selected` flag is still `false`, and assigning the registry's selected
repository never modifies any wrapper in the heap nor the sequence. -/
theorem C10_selection_independent_of_selected_flag (pid : String)
    (s : ScmService) (v : Option Nat) :
    ((emptyScmService.registerScmProvider pid).2.1.selectedRepository = some 0)
    ∧ (List.lookup 0 (emptyScmService.registerScmProvider pid).2.1.heap
        = some { providerId := pid })
    ∧ ((List.lookup 0 (emptyScmService.registerScmProvider pid).2.1.heap).map
        (fun w => w._selected) = some false)
    ∧ ((s.setSelectedRepository v).1.heap = s.heap)
    ∧ ((s.setSelectedRepository v).1._repositories = s._repositories) :=
  ⟨rfl, rfl, rfl, rfl, rfl⟩

/-- C3 counterexample: register provider `"a"` into the empty registry (its
wrapper `0` becomes selected), then dispose that wrapper.  The sequence is
now empty while the selection still holds wrapper `0`, so the claimed
membership invariant fails on a reachable state. -/
theorem C3_counterexample :
    ((ScmRepositoryImpl.dispose
        (emptyScmService.registerScmProvider "a").2.1 0).1._selectedRepository
      = some 0)
    ∧ ((ScmRepositoryImpl.dispose
        (emptyScmService.registerScmProvider "a").2.1 0).1._repositories = [])
    ∧ ((ScmRepositoryImpl.dispose
        (emptyScmService.registerScmProvider "a").2.1 0).1.selectedOk = false) := by
  decide

/-- C3 (amended): registration always preserves the selected-membership
invariant, disposing a wrapper that is not the current selection preserves
it, and assigning a selection that is absent or a member of the sequence
preserves it; disposing the selected wrapper itself, however, leaves a
dangling selection (see the counterexample), matching the documented
quirk. -/
theorem C3_selected_membership_amended (s : ScmService) (pid : String)
    (uid : Nat) (v : Option Nat) (h : s.selectedOk = true) :
    ((s.registerScmProvider pid).2.1.selectedOk = true)
    ∧ (s._selectedRepository ≠ some uid →
        (ScmRepositoryImpl.dispose s uid).1.selectedOk = true)
    ∧ ((v.all fun u => s._repositories.contains u) = true →
        (s.setSelectedRepository v).1.selectedOk = true) := by
  refine ⟨?_, ?_, ?_⟩
  · cases hc : s.providerIds.contains pid with
    | true => rw [registerScmProvider_of_duplicate s pid hc]; exact h
    | false =>
      obtain ⟨-, -, hrep, -, -, hsel⟩ := registerScmProvider_of_fresh s pid hc
      by_cases hr : s._repositories = []
      · simp [ScmService.selectedOk, hsel, hrep, hr]
      · cases hs : s._selectedRepository with
        | none => simp [ScmService.selectedOk, hsel, hrep, if_neg hr, hs]
        | some u =>
          have hu : u ∈ s._repositories := by
            simp only [ScmService.selectedOk, hs] at h
            exact (contains_eq_true_iff _ _).mp h
          simp [ScmService.selectedOk, hsel, hrep, if_neg hr, hs,
                List.mem_append, hu]
  · intro hne
    cases hheap : List.lookup uid s.heap with
    | none =>
      simp only [ScmRepositoryImpl.dispose, hheap]
      exact h
    | some r =>
      by_cases hmem : uid ∈ s._repositories
      · rw [dispose_of_mem s uid r hheap hmem]
        cases hs : s._selectedRepository with
        | none => simp [ScmService.selectedOk, hs]
        | some u =>
          have hu : u ∈ s._repositories := by
            simp only [ScmService.selectedOk, hs] at h
            exact (contains_eq_true_iff _ _).mp h
          have hneq : u ≠ uid := by
            intro hEq
            exact hne (by rw [hs, hEq])
          have hmem' : u ∈ s._repositories.erase uid :=
            (List.mem_erase_of_ne hneq).mpr hu
          simp [ScmService.selectedOk, hs, hmem']
      · rw [dispose_of_not_mem s uid r hheap hmem]
        exact h
  · intro hv
    cases v with
    | none => simp [ScmService.setSelectedRepository, ScmService.selectedOk]
    | some u =>
      simp only [Option.all] at hv
      have hu : u ∈ s._repositories := (contains_eq_true_iff _ _).mp hv
      simp [ScmService.setSelectedRepository, ScmService.selectedOk, hu]

/-- Witness for the amended C3: the registry holding only provider `"a"`
(wrapper `0`, selected), registering `"b"`, disposing the non-selected
wrapper `5`, and re-assigning the member `0`. -/
theorem C3_witness :
    ((emptyScmService.registerScmProvider "a").2.1.selectedOk = true)
    ∧ (((emptyScmService.registerScmProvider "a").2.1.registerScmProvider
          "b").2.1.selectedOk = true)
    ∧ ((ScmRepositoryImpl.dispose
          (emptyScmService.registerScmProvider "a").2.1 5).1.selectedOk = true)
    ∧ (((emptyScmService.registerScmProvider "a").2.1.setSelectedRepository
          (some 0)).1.selectedOk = true) :=
  ⟨by decide,
   (C3_selected_membership_amended _ "b" 5 (some 0) (by decide)).1,
   (C3_selected_membership_amended _ "b" 5 (some 0) (by decide)).2.1 (by decide),
   (C3_selected_membership_amended _ "b" 5 (some 0) (by decide)).2.2 (by decide)⟩

/-- C4: disposing a registered wrapper removes it from the repositories
snapshot and fires exactly one repository-removed registry notification
carrying it; a second dispose of the same wrapper raises no error, emits
zero further registry notifications (only the external provider-dispose
forwarding recurs) and leaves the registry state — sequence and provider-id
set — unchanged. -/
theorem C4_dispose_idempotent (s : ScmService) (uid : Nat)
    (r : ScmRepositoryImpl)
    (hheap : List.lookup uid s.heap = some r) (hmem : uid ∈ s._repositories)
    (hnd : s._repositories.Nodup) :
    (ScmService.repositories (ScmRepositoryImpl.dispose s uid).1
        = (ScmService.repositories s).erase uid)
    ∧ (uid ∉ (ScmRepositoryImpl.dispose s uid).1._repositories)
    ∧ ((ScmRepositoryImpl.dispose s uid).2.filter ScmEvent.isRegistryEvent
        = [ScmEvent.didRemoveRepository uid])
    ∧ (ScmRepositoryImpl.dispose (ScmRepositoryImpl.dispose s uid).1 uid
        = ((ScmRepositoryImpl.dispose s uid).1,
           [ScmEvent.providerDisposed r.providerId]))
    ∧ ((ScmRepositoryImpl.dispose
          (ScmRepositoryImpl.dispose s uid).1 uid).2.filter
        ScmEvent.isRegistryEvent = []) := by
  have hd := dispose_of_mem s uid r hheap hmem
  have hnotmem : uid ∉ s._repositories.erase uid := by
    intro hin
    exact absurd (hnd.mem_erase_iff.mp hin).1 (not_not_intro rfl)
  have hs1 : (ScmRepositoryImpl.dispose s uid).1
      = { s with providerIds := s.providerIds.erase r.providerId,
                 _repositories := s._repositories.erase uid } := by
    rw [hd]
  have hd2 : ScmRepositoryImpl.dispose (ScmRepositoryImpl.dispose s uid).1 uid
      = ((ScmRepositoryImpl.dispose s uid).1,
         [ScmEvent.providerDisposed r.providerId]) := by
    rw [hs1]
    exact dispose_of_not_mem
      { s with providerIds := s.providerIds.erase r.providerId,
               _repositories := s._repositories.erase uid } uid r hheap hnotmem
  refine ⟨?_, ?_, ?_, hd2, ?_⟩
  · rw [hd]
    simp [ScmService.repositories, jsArrayCopy_eq]
  · rw [hd]
    exact hnotmem
  · rw [hd]
    rfl
  · rw [hd2]
    rfl

/-- Witness for C4: disposing wrapper `0` after registering provider `"a"`
into the empty registry. -/
theorem C4_witness :
    (List.lookup 0 (emptyScmService.registerScmProvider "a").2.1.heap
        = some { providerId := "a" })
    ∧ (0 ∈ (emptyScmService.registerScmProvider "a").2.1._repositories)
    ∧ ((emptyScmService.registerScmProvider "a").2.1._repositories.Nodup)
    ∧ ((ScmRepositoryImpl.dispose
          (emptyScmService.registerScmProvider "a").2.1 0).2.filter
        ScmEvent.isRegistryEvent = [ScmEvent.didRemoveRepository 0]) :=
  ⟨by decide, by decide, by decide,
   (C4_dispose_idempotent _ 0 { providerId := "a" }
      (by decide) (by decide) (by decide)).2.2.1⟩

/-- C8: the repositories getter returns a fresh copy equal to the internal
sequence at call time; a successful registration makes the new internal
sequence the old snapshot with the fresh wrapper appended, and disposing a
registered wrapper makes it the old snapshot with that wrapper erased — the
snapshot value taken before the mutation is itself never modified. -/
theorem C8_repositories_snapshot (s : ScmService) (pid : String) :
    (ScmService.repositories s = s._repositories)
    ∧ (s.providerIds.contains pid = false →
        ((s.registerScmProvider pid).2.1._repositories
            = s._repositories ++ [s.nextUid]
         ∧ ScmService.repositories (s.registerScmProvider pid).2.1
            = ScmService.repositories s ++ [s.nextUid]))
    ∧ (∀ (uid : Nat) (r : ScmRepositoryImpl),
        List.lookup uid s.heap = some r → uid ∈ s._repositories →
        ScmService.repositories (ScmRepositoryImpl.dispose s uid).1
          = (ScmService.repositories s).erase uid) := by
  refine ⟨jsArrayCopy_eq _, ?_, ?_⟩
  · intro h
    obtain ⟨-, -, hrep, -, -, -⟩ := registerScmProvider_of_fresh s pid h
    exact ⟨hrep, by simp [ScmService.repositories, jsArrayCopy_eq, hrep]⟩
  · intro uid r hheap hmem
    rw [dispose_of_mem s uid r hheap hmem]
    simp [ScmService.repositories, jsArrayCopy_eq]

/-- Witness for C8: registering `"b"` after `"a"` appends wrapper `1`;
disposing wrapper `0` erases it from the snapshot. -/
theorem C8_witness :
    ((emptyScmService.registerScmProvider "a").2.1.providerIds.contains "b"
        = false)
    ∧ (ScmService.repositories
        ((emptyScmService.registerScmProvider "a").2.1.registerScmProvider
          "b").2.1
        = ScmService.repositories (emptyScmService.registerScmProvider "a").2.1
          ++ [1])
    ∧ (ScmService.repositories
        (ScmRepositoryImpl.dispose
          (emptyScmService.registerScmProvider "a").2.1 0).1
        = (ScmService.repositories
            (emptyScmService.registerScmProvider "a").2.1).erase 0) :=
  ⟨by decide,
   ((C8_repositories_snapshot _ "b").2.1 (by decide)).2,
   (C8_repositories_snapshot _ "b").2.2 0 { providerId := "a" }
     (by decide) (by decide)⟩
